import Mathlib

/-! pluginctl bump-version: a shallow embedding

Model of `build/pluginctl/bump-version.go` (function `bumpVersion`) together with the
parts of `github.com/blang/semver/v4` that it calls (`Parse`, `IncrementMajor`,
`IncrementMinor`, `IncrementPatch`, `Version.String`) and the library ordering
`Version.Compare`.

Go strings are modelled as lists of characters, `uint64` as `Nat` reduced modulo `2^64`
where the Go code can overflow, Go `error` values as the inductive `GoError`, and the
outside world (manifest collaborator, `git` processes, terminal prompt) as a record of
result oracles; every interaction is recorded in an event trace.
-/

namespace Pluginctl

/-- Go `string`, as a list of characters. -/
abbrev Str := List Char

/-- Number of values of a Go `uint64`. -/
def uint64Size : Nat := 2 ^ 64

/-- Largest `uint64`, 18446744073709551615. -/
def maxUint64 : Nat := uint64Size - 1

/-- Failure kinds of `strconv.ParseUint`. -/
inductive NumErrKind where
  | errSyntax
  | errRange
deriving DecidableEq, Repr

/-- Go `error` values that `bumpVersion` can create or pass on. -/
inductive GoError where
  /-- The value of `errors.New(msg)`. -/
  | new (msg : Str)
  /-- The value of `fmt.Errorf(msg, arg)`, `msg` holding one `%q` verb. -/
  | errorfQ (msg : Str) (arg : Str)
  /-- The value of `errors.Errorf(msg)`, the message already formatted. -/
  | errorf (msg : Str)
  /-- A `*strconv.NumError` of `ParseUint`. -/
  | numError (num : Str) (kind : NumErrKind)
  /-- The value of `errors.Wrap(cause, msg)`. -/
  | wrap (cause : GoError) (msg : Str)
  /-- An `*exec.ExitError`: the process was started and exited with a non-zero status. -/
  | exitError (code : Nat)
  /-- Any other error of `CombinedOutput`: the process could not be run. -/
  | execError (msg : Str)
  /-- An error value produced by a collaborator (manifest I/O, prompt). -/
  | external (msg : Str)
deriving DecidableEq, Repr

deriving instance DecidableEq for Except

/-! ## semver: data -/

/-- The semver type `PRVersion`: one dot-separated pre-release identifier. -/
structure PRVersion where
  VersionStr : Str
  VersionNum : Nat
  IsNum : Bool
deriving DecidableEq, Repr

/-- The semver type `Version`. -/
structure Version where
  Major : Nat
  Minor : Nat
  Patch : Nat
  Pre : List PRVersion
  Build : List Str
deriving DecidableEq, Repr

/-- The constant `numbers`. -/
def numbers : Str := "0123456789".toList

/-- The constant `alphas`. -/
def alphas : Str := "abcdefghijklmnopqrstuvwxyzABCDEFGHIJKLMNOPQRSTUVWXYZ-".toList

/-- The constant `alphanum`. -/
def alphanum : Str := alphas ++ numbers

/-! ## semver: parsing -/

/-- The helper `containsOnly(s, set)`: no rune of `s` lies outside `set`. -/
def containsOnly (s : Str) (set : Str) : Bool :=
  s.all fun r => set.contains r

/-- The helper `hasLeadingZeroes(s)`: `len(s) > 1 && s[0] == '0'`. -/
def hasLeadingZeroes (s : Str) : Bool :=
  match s with
  | c :: _ :: _ => c == '0'
  | _ => false

/-- Value of a decimal digit, `none` for any other rune. -/
def digitVal (c : Char) : Option Nat :=
  if '0' ≤ c ∧ c ≤ '9' then some (c.toNat - '0'.toNat) else none

/-- Left-to-right accumulation of decimal digits (unbounded). -/
def parseDigits : Nat → Str → Option Nat
  | acc, [] => some acc
  | acc, c :: cs =>
    match digitVal c with
    | none => none
    | some d => parseDigits (acc * 10 + d) cs

/-- The call `strconv.ParseUint(s, 10, 64)`: a syntax error on the empty string or a
non-digit, a range error above `maxUint64`. -/
def ParseUint (s : Str) : Except GoError Nat :=
  match s with
  | [] => .error (.numError s .errSyntax)
  | _ =>
    match parseDigits 0 s with
    | none => .error (.numError s .errSyntax)
    | some n => if n ≤ maxUint64 then .ok n else .error (.numError s .errRange)

/-- Cut `s` at the first occurrence of `sep`: the text before and the text after. -/
def cut (sep : Char) : Str → Option (Str × Str)
  | [] => none
  | c :: cs =>
    if c = sep then some ([], cs)
    else
      match cut sep cs with
      | none => none
      | some (a, b) => some (c :: a, b)

/-- The call `strings.SplitN(s, sep, n)` for a one-rune separator and `n ≥ 0`. -/
def SplitN (s : Str) (sep : Char) : Nat → List Str
  | 0 => []
  | 1 => [s]
  | n + 2 =>
    match cut sep s with
    | none => [s]
    | some (a, rest) => a :: SplitN rest sep (n + 1)

/-- The call `strings.Split(s, sep)` for a one-rune separator. -/
def Split (sep : Char) : Str → List Str
  | [] => [[]]
  | c :: cs =>
    if c = sep then [] :: Split sep cs
    else
      match Split sep cs with
      | [] => [[c]]
      | p :: ps => (c :: p) :: ps

/-- The call `strings.IndexRune(s, r)`: index of the first `r`, or `-1`. -/
def IndexRune (s : Str) (r : Char) : Int :=
  match s with
  | [] => -1
  | c :: cs =>
    if c = r then 0
    else
      let i := IndexRune cs r
      if i = -1 then -1 else i + 1

/-- The function `NewPRVersion`. -/
def NewPRVersion (s : Str) : Except GoError PRVersion :=
  if s.length = 0 then .error (.new "Prerelease is empty".toList)
  else if containsOnly s numbers then
    if hasLeadingZeroes s then
      .error (.errorfQ "Numeric PreRelease version must not contain leading zeroes %q".toList s)
    else
      match ParseUint s with
      | .error e => .error e
      | .ok num => .ok { VersionStr := [], VersionNum := num, IsNum := true }
  else if containsOnly s alphanum then
    .ok { VersionStr := s, VersionNum := 0, IsNum := false }
  else .error (.errorfQ "Invalid character(s) found in prerelease %q".toList s)

/-- The pre-release loop of `Parse`: every identifier through `NewPRVersion`. -/
def parsePre : List Str → Except GoError (List PRVersion)
  | [] => .ok []
  | prstr :: rest =>
    match NewPRVersion prstr with
    | .error e => .error e
    | .ok parsedPR =>
      match parsePre rest with
      | .error e => .error e
      | .ok ps => .ok (parsedPR :: ps)

/-- The build-metadata loop of `Parse`. -/
def parseBuild : List Str → Except GoError (List Str)
  | [] => .ok []
  | str :: rest =>
    if str.length = 0 then .error (.new "Build meta data is empty".toList)
    else if !containsOnly str alphanum then
      .error (.errorfQ "Invalid character(s) found in build meta data %q".toList str)
    else
      match parseBuild rest with
      | .error e => .error e
      | .ok bs => .ok (str :: bs)

/-- A numeric component of `Parse`: character check, leading-zero check, `ParseUint`;
`badChars` and `leadingZeroes` are the two `fmt.Errorf` formats of the component. -/
def parseComponent (badChars leadingZeroes : Str) (part : Str) : Except GoError Nat :=
  if !containsOnly part numbers then .error (.errorfQ badChars part)
  else if hasLeadingZeroes part then .error (.errorfQ leadingZeroes part)
  else ParseUint part

/-- The function `semver.Parse`. -/
def Parse (s : Str) : Except GoError Version :=
  if s.length = 0 then .error (.new "Version string empty".toList)
  else
    match SplitN s '.' 3 with
    | [p0, p1, p2] =>
      match parseComponent "Invalid character(s) found in major number %q".toList
          "Major number must not contain leading zeroes %q".toList p0 with
      | .error e => .error e
      | .ok major =>
      match parseComponent "Invalid character(s) found in minor number %q".toList
          "Minor number must not contain leading zeroes %q".toList p1 with
      | .error e => .error e
      | .ok minor =>
        let buildIndex := IndexRune p2 '+'
        let build : List Str :=
          if buildIndex ≠ -1 then Split '.' (p2.drop (buildIndex + 1).toNat) else []
        let patchStr := if buildIndex ≠ -1 then p2.take buildIndex.toNat else p2
        let preIndex := IndexRune patchStr '-'
        let prerelease : List Str :=
          if preIndex ≠ -1 then Split '.' (patchStr.drop (preIndex + 1).toNat) else []
        let patchStr := if preIndex ≠ -1 then patchStr.take preIndex.toNat else patchStr
        match parseComponent "Invalid character(s) found in patch number %q".toList
          "Patch number must not contain leading zeroes %q".toList patchStr with
        | .error e => .error e
        | .ok patch =>
        match parsePre prerelease with
        | .error e => .error e
        | .ok pre =>
        match parseBuild build with
        | .error e => .error e
        | .ok bld =>
          .ok { Major := major, Minor := minor, Patch := patch, Pre := pre, Build := bld }
    | _ => .error (.new "No Major.Minor.Patch elements found".toList)

/-! ## semver: printing and incrementing -/

/-- The call `strconv.AppendUint(b, n, 10)` on an empty buffer: decimal digits of `n`. -/
def AppendUint (n : Nat) : Str := Nat.toDigits 10 n

/-- The method `PRVersion.String`. -/
def PRVersion.String (v : PRVersion) : Str :=
  if v.IsNum then AppendUint v.VersionNum else v.VersionStr

/-- Join the pieces with a dot between consecutive ones. -/
def joinDots : List Str → Str
  | [] => []
  | [x] => x
  | x :: y :: rest => x ++ '.' :: joinDots (y :: rest)

/-- The method `Version.String`. -/
def Version.String (v : Version) : Str :=
  AppendUint v.Major ++ '.' :: AppendUint v.Minor ++ '.' :: AppendUint v.Patch
    ++ (if v.Pre.length > 0 then '-' :: joinDots (v.Pre.map PRVersion.String) else [])
    ++ (if v.Build.length > 0 then '+' :: joinDots v.Build else [])

/-- The method `IncrementPatch`: `v.Patch++` on a `uint64`. -/
def Version.IncrementPatch (v : Version) : Version × Option GoError :=
  ({ v with Patch := (v.Patch + 1) % uint64Size }, none)

/-- The method `IncrementMinor`: `v.Minor++; v.Patch = 0`. -/
def Version.IncrementMinor (v : Version) : Version × Option GoError :=
  ({ v with Minor := (v.Minor + 1) % uint64Size, Patch := 0 }, none)

/-- The method `IncrementMajor`: `v.Major++; v.Minor = 0; v.Patch = 0`. -/
def Version.IncrementMajor (v : Version) : Version × Option GoError :=
  ({ v with Major := (v.Major + 1) % uint64Size, Minor := 0, Patch := 0 }, none)

/-! ## semver: precedence -/

/-- Go comparison of two strings: lexicographic, `-1`, `0` or `1`. -/
def strCompare : Str → Str → Int
  | [], [] => 0
  | [], _ :: _ => -1
  | _ :: _, [] => 1
  | a :: as, b :: bs =>
    if a.toNat < b.toNat then -1
    else if a.toNat > b.toNat then 1
    else strCompare as bs

/-- The method `PRVersion.Compare`. -/
def PRVersion.Compare (v o : PRVersion) : Int :=
  if v.IsNum && !o.IsNum then -1
  else if !v.IsNum && o.IsNum then 1
  else if v.IsNum && o.IsNum then
    if v.VersionNum = o.VersionNum then 0
    else if v.VersionNum > o.VersionNum then 1
    else -1
  else
    if v.VersionStr = o.VersionStr then 0
    else if strCompare v.VersionStr o.VersionStr = 1 then 1
    else -1

/-- The pre-release loop of `Version.Compare` with the length comparison after it. -/
def comparePre : List PRVersion → List PRVersion → Int
  | [], [] => 0
  | [], _ :: _ => -1
  | _ :: _, [] => 1
  | a :: as, b :: bs =>
    let comp := a.Compare b
    if comp = 0 then comparePre as bs
    else if comp = 1 then 1
    else -1

/-- The method `Version.Compare`: `-1` when `v` is lower than `o`, `0` when they have
equal precedence, `1` when `v` is higher. -/
def Version.Compare (v o : Version) : Int :=
  if v.Major ≠ o.Major then (if v.Major > o.Major then 1 else -1)
  else if v.Minor ≠ o.Minor then (if v.Minor > o.Minor then 1 else -1)
  else if v.Patch ≠ o.Patch then (if v.Patch > o.Patch then 1 else -1)
  else if v.Pre.length = 0 ∧ o.Pre.length = 0 then 0
  else if v.Pre.length = 0 ∧ o.Pre.length > 0 then 1
  else if v.Pre.length > 0 ∧ o.Pre.length = 0 then -1
  else comparePre v.Pre o.Pre

/-! ## The manifest collaborator and the outside world -/

/-- The part of the plugin manifest that `bumpVersion` reads and writes: the fields `Id`
and `Version` and the answers of `HasServer()` and `HasWebapp()`. -/
structure Manifest where
  Id : Str
  Version : Str
  hasServer : Bool
  hasWebapp : Bool
deriving DecidableEq, Repr

/-- The method `manifest.HasServer()`. -/
def Manifest.HasServer (m : Manifest) : Bool := m.hasServer

/-- The method `manifest.HasWebapp()`. -/
def Manifest.HasWebapp (m : Manifest) : Bool := m.hasWebapp

/-- One interaction of `bumpVersion` with the outside world. -/
inductive Event where
  /-- A call of `findManifest()`. -/
  | findManifest
  /-- A call of `writeManifest(m)`. -/
  | writeManifest (m : Manifest)
  /-- A call of `applyManifest(m)`. -/
  | applyManifest (m : Manifest)
  /-- A run of `exec.Command("git", args...).CombinedOutput()`. -/
  | git (args : List Str)
  /-- A `fmt.Print` or `fmt.Println` of the text. -/
  | print (out : Str)
  /-- A call of `prompt.Run()`. -/
  | promptRun
deriving DecidableEq, Repr

/-- The outside world of one run: what every collaborator answers. The `git` answer may
depend on how many `git` processes the run has started before and on the arguments. -/
structure World where
  /-- The branch checked out in the repository when the command starts. -/
  branch : Str
  findManifest : Except GoError Manifest
  writeManifest : Manifest → Option GoError
  applyManifest : Manifest → Option GoError
  git : Nat → List Str → Str × Option GoError
  promptRun : Except GoError Str

/-- What a run of `bumpVersion` did and returned (`none` is Go `nil`). -/
structure Outcome where
  trace : List Event
  err : Option GoError
deriving DecidableEq, Repr

/-! ## bumpVersion -/

/-- The `switch mode` of `bumpVersion`: the incremented copy of the version and the error
of the increment call, or `none` in the `default` case. -/
def switchMode (mode : Str) (oldVersion : Version) : Option (Version × Option GoError) :=
  if mode = "major".toList then some oldVersion.IncrementMajor
  else if mode = "minor".toList then some oldVersion.IncrementMinor
  else if mode = "patch".toList then some oldVersion.IncrementPatch
  else none

/-- The slice `files` built by `bumpVersion`. -/
def files (manifest : Manifest) : List Str :=
  let files := ["plugin.json".toList]
  let files := if manifest.HasServer then files ++ ["server/manifest.go".toList] else files
  let files := if manifest.HasWebapp then files ++ ["webapp/src/manifest.js".toList] else files
  files

/-- The slice `gitCommands` of `bumpVersion`, with `branch = "release_v" + newVersion`. -/
def gitCommands (newVersion : Version) (files : List Str) : List (List Str) :=
  let branch := "release_v".toList ++ newVersion.String
  [ ["checkout".toList, "-b".toList, branch],
    "add".toList :: files,
    ["commit".toList, "-m".toList, "Bump version to ".toList ++ newVersion.String],
    ["push".toList, "--set-upstream".toList, "origin".toList, branch],
    ["checkout".toList, "master".toList] ]

/-- The loop over `gitCommands`: run each command, print its output, stop at the first
error; `n` is the number of `git` processes started before. -/
def runGitCommands (w : World) : Nat → List (List Str) → Outcome
  | _, [] => ⟨[], none⟩
  | n, command :: rest =>
    match w.git n command with
    | (out, some err) => ⟨[.git command, .print out], some err⟩
    | (out, none) =>
      let o := runGitCommands w (n + 1) rest
      ⟨.git command :: .print out :: o.trace, o.err⟩

/-- The function `bumpVersion(mode)`. -/
def bumpVersion (w : World) (mode : Str) : Outcome :=
  match w.findManifest with
  | .error err => ⟨[.findManifest], some (.wrap err "failed to find manifest".toList)⟩
  | .ok manifest =>
  match Parse manifest.Version with
  | .error err =>
    ⟨[.findManifest], some (.wrap err "failed to parse version in manifest".toList)⟩
  | .ok oldVersion =>
  match switchMode mode oldVersion with
  | none => ⟨[.findManifest], some (.errorf ("unknown mode ".toList ++ mode))⟩
  | some (_, some err) =>
    ⟨[.findManifest], some (.wrap err "failed up bump manifest version".toList)⟩
  | some (newVersion, none) =>
  let manifest := { manifest with Version := newVersion.String }
  match w.writeManifest manifest with
  | some err =>
    ⟨[.findManifest, .writeManifest manifest],
      some (.wrap err "failed to writing manifest after bumping version".toList)⟩
  | none =>
  match w.applyManifest manifest with
  | some err =>
    ⟨[.findManifest, .writeManifest manifest, .applyManifest manifest],
      some (.wrap err "failed to applying manifest after bumping version".toList)⟩
  | none =>
  let files := files manifest
  let diff := "diff".toList :: files
  match w.git 0 diff with
  | (out, some err) =>
    ⟨[.findManifest, .writeManifest manifest, .applyManifest manifest, .git diff, .print out],
      some err⟩
  | (out, none) =>
  match w.promptRun with
  | .error _ =>
    ⟨[.findManifest, .writeManifest manifest, .applyManifest manifest, .git diff, .print out,
        .promptRun, .print "Diff wasn\x27t confirmed. Exiting.\n".toList], none⟩
  | .ok _ =>
    let o := runGitCommands w 1 (gitCommands newVersion files)
    ⟨[.findManifest, .writeManifest manifest, .applyManifest manifest, .git diff, .print out,
        .promptRun] ++ o.trace, o.err⟩

/-! ## Observations on a run and concrete worlds -/

/-- The manifests handed to `writeManifest`, in order. -/
def writtenManifests : List Event → List Manifest
  | [] => []
  | .writeManifest m :: rest => m :: writtenManifests rest
  | _ :: rest => writtenManifests rest

/-- The argument lists of the `git` processes started, in order. -/
def gitCalls : List Event → List (List Str)
  | [] => []
  | .git args :: rest => args :: gitCalls rest
  | _ :: rest => gitCalls rest

/-- The component a mode increments: `Major`, `Minor`, or `Patch` otherwise. -/
def selected (mode : Str) (v : Version) : Nat :=
  if mode = "major".toList then v.Major
  else if mode = "minor".toList then v.Minor
  else v.Patch

/-- A world where the manifest holds `version`, every collaborator and every `git`
process succeeds with empty output, and the operator confirms. -/
def okWorld (branch version : Str) (hasServer hasWebapp : Bool) : World where
  branch := branch
  findManifest := .ok { Id := "com.example.plugin".toList, Version := version,
                        hasServer := hasServer, hasWebapp := hasWebapp }
  writeManifest := fun _ => none
  applyManifest := fun _ => none
  git := fun _ _ => ([], none)
  promptRun := .ok "y".toList

/-- A world whose manifest cannot be found; everything else as in `okWorld`. -/
def noManifestWorld : World :=
  { okWorld "master".toList "1.2.3".toList false false with
    findManifest := .error (.external "no manifest found".toList) }

/-- A world where the operator declines at the prompt (`promptui.ErrAbort`). -/
def declineWorld : World :=
  { okWorld "master".toList "1.2.3".toList true false with
    promptRun := .error (.external "".toList) }

/-- A world where the fourth command of the sequence, the push, exits with status 1. -/
def pushFailsWorld : World :=
  { okWorld "master".toList "1.2.3".toList true false with
    git := fun n _ =>
      if n = 4 then ("remote rejected\n".toList, some (.exitError 1)) else ([], none) }

/-- A world where the `git diff` process is started and exits with status 1. -/
def diffExitsWorld : World :=
  { okWorld "master".toList "1.2.3".toList true false with
    git := fun n _ =>
      if n = 0 then ("fatal: bad revision\n".toList, some (.exitError 1)) else ([], none) }

/-! ## Helper lemmas -/

theorem writtenManifests_runGitCommands (w : World) (n : Nat) (cmds : List (List Str)) :
    writtenManifests (runGitCommands w n cmds).trace = [] := by
  induction cmds generalizing n with
  | nil => rfl
  | cons c rest ih =>
    unfold runGitCommands
    split
    · rfl
    · simp [writtenManifests, ih]

theorem writtenManifests_bumpVersion (w : World) (mode : Str) (m : Manifest) (v v1 : Version)
    (hf : w.findManifest = .ok m) (hp : Parse m.Version = .ok v)
    (hs : switchMode mode v = some (v1, none)) :
    writtenManifests (bumpVersion w mode).trace = [{ m with Version := v1.String }] := by
  unfold bumpVersion
  simp only [hf, hp, hs]
  split
  · rfl
  · split
    · rfl
    · split
      · rfl
      · split
        · rfl
        · simp [writtenManifests, writtenManifests_runGitCommands]

theorem AppendUint_zero : AppendUint 0 = ['0'] := by decide

theorem switchMode_unknown (mode : Str) (v : Version) (h1 : mode ≠ "major".toList)
    (h2 : mode ≠ "minor".toList) (h3 : mode ≠ "patch".toList) : switchMode mode v = none := by
  unfold switchMode
  rw [if_neg h1, if_neg h2, if_neg h3]

theorem switchMode_major (v : Version) :
    switchMode "major".toList v
      = some ({ v with Major := (v.Major + 1) % uint64Size, Minor := 0, Patch := 0 }, none) := by
  simp [switchMode, Version.IncrementMajor]

theorem switchMode_minor (v : Version) :
    switchMode "minor".toList v
      = some ({ v with Minor := (v.Minor + 1) % uint64Size, Patch := 0 }, none) := by
  simp [switchMode, Version.IncrementMinor]

theorem switchMode_patch (v : Version) :
    switchMode "patch".toList v
      = some ({ v with Patch := (v.Patch + 1) % uint64Size }, none) := by
  simp [switchMode, Version.IncrementPatch]

theorem runGitCommands_fail (w : World) (cmds : List (List Str)) (n k : Nat)
    (command : List Str) (out : Str) (e : GoError)
    (hk : cmds[k]? = some command)
    (hok : ∀ i c, i < k → cmds[i]? = some c → (w.git (n + i) c).2 = none)
    (hfail : w.git (n + k) command = (out, some e)) :
    (runGitCommands w n cmds).err = some e ∧
    gitCalls (runGitCommands w n cmds).trace = cmds.take (k + 1) ∧
    (runGitCommands w n cmds).trace.getLast? = some (.print out) := by
  induction cmds generalizing n k with
  | nil => simp at hk
  | cons c rest ih =>
    cases k with
    | zero =>
      simp at hk
      subst hk
      simp at hfail
      unfold runGitCommands
      simp [hfail, gitCalls]
    | succ k =>
      have h0 : (w.git n c).2 = none := by
        have := hok 0 c (Nat.succ_pos k) (by simp)
        simpa using this
      have hk1 : rest[k]? = some command := by simpa using hk
      have hok1 : ∀ i c, i < k → rest[i]? = some c → (w.git (n + 1 + i) c).2 = none := by
        intro i c1 hi hc
        have := hok (i + 1) c1 (Nat.succ_lt_succ hi) (by simpa using hc)
        rwa [show n + (i + 1) = n + 1 + i by omega] at this
      have hfail1 : w.git (n + 1 + k) command = (out, some e) := by
        rwa [show n + (k + 1) = n + 1 + k by omega] at hfail
      obtain ⟨i1, i2, i3⟩ := ih (n + 1) k hk1 hok1 hfail1
      unfold runGitCommands
      rcases hg : w.git n c with ⟨o, r⟩
      rw [hg] at h0
      simp at h0
      subst h0
      simp [gitCalls, i1, i2, List.getLast?_cons, i3]

theorem runGitCommands_ok (w : World) (cmds : List (List Str)) (n : Nat)
    (hall : ∀ i args, (w.git i args).2 = none) :
    (runGitCommands w n cmds).err = none ∧
    gitCalls (runGitCommands w n cmds).trace = cmds := by
  induction cmds generalizing n with
  | nil => exact ⟨rfl, rfl⟩
  | cons c rest ih =>
    obtain ⟨i1, i2⟩ := ih (n + 1)
    unfold runGitCommands
    rcases hg : w.git n c with ⟨o, r⟩
    have h0 := hall n c
    rw [hg] at h0
    simp at h0
    subst h0
    simp [gitCalls, i1, i2]

theorem gitCalls_runGitCommands_mem (w : World) (cmds : List (List Str)) (n : Nat) :
    ∀ args ∈ gitCalls (runGitCommands w n cmds).trace, args ∈ cmds := by
  induction cmds generalizing n with
  | nil => intro args h; simp [runGitCommands, gitCalls] at h
  | cons c rest ih =>
    intro args h
    unfold runGitCommands at h
    rcases hg : w.git n c with ⟨o, r⟩
    rw [hg] at h
    cases r with
    | some e =>
      simp [gitCalls] at h
      simp [h]
    | none =>
      simp [gitCalls] at h
      rcases h with h | h
      · simp [h]
      · exact List.mem_cons_of_mem _ (ih (n + 1) args h)

theorem gitCalls_runGitCommands_second (w : World) (n : Nat) (c1 c2 : List Str)
    (rest : List (List Str)) (h : (w.git n c1).2 = none) :
    ∃ tl, gitCalls (runGitCommands w n (c1 :: c2 :: rest)).trace = c1 :: c2 :: tl := by
  unfold runGitCommands
  rcases hg : w.git n c1 with ⟨o, r⟩
  rw [hg] at h
  simp at h
  subst h
  unfold runGitCommands
  rcases w.git (n + 1) c2 with ⟨o2, r2⟩
  cases r2 with
  | some e => exact ⟨[], by simp [gitCalls]⟩
  | none =>
    exact ⟨gitCalls (runGitCommands w (n + 1 + 1) rest).trace, by simp [gitCalls]⟩

theorem files_update_version (m : Manifest) (s : Str) :
    files { m with Version := s } = files m := rfl

theorem bumpVersion_commit_stage (w : World) (mode : Str) (m : Manifest)
    (v newVersion : Version) (out answer : Str)
    (hf : w.findManifest = .ok m) (hp : Parse m.Version = .ok v)
    (hs : switchMode mode v = some (newVersion, none))
    (hw : w.writeManifest { m with Version := newVersion.String } = none)
    (ha : w.applyManifest { m with Version := newVersion.String } = none)
    (hd : w.git 0 ("diff".toList :: files m) = (out, none))
    (hprompt : w.promptRun = .ok answer) :
    bumpVersion w mode =
      ⟨[.findManifest, .writeManifest { m with Version := newVersion.String },
          .applyManifest { m with Version := newVersion.String },
          .git ("diff".toList :: files m), .print out, .promptRun]
          ++ (runGitCommands w 1 (gitCommands newVersion (files m))).trace,
        (runGitCommands w 1 (gitCommands newVersion (files m))).err⟩ := by
  unfold bumpVersion
  simp only [hf, hp, hs, hw, ha, files_update_version, hd, hprompt]

theorem gitCalls_append (a b : List Event) : gitCalls (a ++ b) = gitCalls a ++ gitCalls b := by
  induction a with
  | nil => rfl
  | cons x xs ih => cases x <;> simp [gitCalls, ih]

theorem files_cases (m : Manifest) :
    files m = "plugin.json".toList ::
      ((if m.HasServer then ["server/manifest.go".toList] else []) ++
        (if m.HasWebapp then ["webapp/src/manifest.js".toList] else [])) := by
  cases hs : m.hasServer <;> cases hw : m.hasWebapp <;>
    simp [files, Manifest.HasServer, Manifest.HasWebapp, hs, hw]

theorem gitCalls_bumpVersion_mem (w : World) (mode : Str) (m : Manifest)
    (hf : w.findManifest = .ok m) :
    ∀ args ∈ gitCalls (bumpVersion w mode).trace,
      args = "diff".toList :: files m ∨
        ∃ newVersion, args ∈ gitCommands newVersion (files m) := by
  unfold bumpVersion
  simp only [hf]
  split
  · simp [gitCalls]
  · split
    · simp [gitCalls]
    · simp [gitCalls]
    · split
      · simp [gitCalls]
      · split
        · simp [gitCalls]
        · split
          · simp [gitCalls, files_update_version]
          · split
            · simp [gitCalls, files_update_version]
            · intro args h
              rw [gitCalls_append] at h
              simp only [gitCalls, files_update_version, List.mem_append, List.mem_singleton,
                List.mem_cons, List.not_mem_nil, or_false] at h
              rcases h with h | h
              · exact Or.inl h
              · exact Or.inr ⟨_, gitCalls_runGitCommands_mem w _ 1 args h⟩

theorem Compare_major_gt (a b : Version) (h : b.Major < a.Major) : a.Compare b = 1 := by
  unfold Version.Compare
  rw [if_pos (Nat.ne_of_gt h), if_pos h]

theorem Compare_minor_gt (a b : Version) (h1 : a.Major = b.Major) (h : b.Minor < a.Minor) :
    a.Compare b = 1 := by
  unfold Version.Compare
  rw [if_neg (not_not.mpr h1), if_pos (Nat.ne_of_gt h), if_pos h]

theorem Compare_patch_gt (a b : Version) (h1 : a.Major = b.Major) (h2 : a.Minor = b.Minor)
    (h : b.Patch < a.Patch) : a.Compare b = 1 := by
  unfold Version.Compare
  rw [if_neg (not_not.mpr h1), if_neg (not_not.mpr h2), if_pos (Nat.ne_of_gt h), if_pos h]

/-! ## Version arithmetic (C1, C2) -/

/-- C1 (amended): when the manifest version parses as a plain `MAJOR.MINOR.PATCH`, the
version `bumpVersion` hands to `writeManifest` is, with the incremented component taken
modulo `2^64` (the Go `uint64` increment): `(MAJOR+1).0.0` for major,
`MAJOR.(MINOR+1).0` for minor and `MAJOR.MINOR.(PATCH+1)` for patch. -/
theorem bumpVersion_plain_increment (w : World) (m : Manifest) (major minor patch : Nat)
    (hf : w.findManifest = .ok m)
    (hp : Parse m.Version = .ok ⟨major, minor, patch, [], []⟩) :
    writtenManifests (bumpVersion w "major".toList).trace =
        [{ m with Version := AppendUint ((major + 1) % uint64Size) ++ ".0.0".toList }] ∧
    writtenManifests (bumpVersion w "minor".toList).trace =
        [{ m with Version :=
            AppendUint major ++ '.' :: AppendUint ((minor + 1) % uint64Size) ++ ".0".toList }] ∧
    writtenManifests (bumpVersion w "patch".toList).trace =
        [{ m with Version :=
            AppendUint major ++ '.' :: AppendUint minor ++ '.' ::
              AppendUint ((patch + 1) % uint64Size) }] := by
  refine ⟨?_, ?_, ?_⟩
  · rw [writtenManifests_bumpVersion w _ m _ _ hf hp (switchMode_major _)]
    simp [Version.String, AppendUint_zero]
  · rw [writtenManifests_bumpVersion w _ m _ _ hf hp (switchMode_minor _)]
    simp [Version.String, AppendUint_zero]
  · rw [writtenManifests_bumpVersion w _ m _ _ hf hp (switchMode_patch _)]
    simp [Version.String]

/-- C1, witness: the manifest version `1.2.3` becomes `2.0.0`, `1.3.0` and `1.2.4`. -/
theorem bumpVersion_plain_increment_witness :
    Parse "1.2.3".toList = .ok ⟨1, 2, 3, [], []⟩ ∧
    (writtenManifests
        (bumpVersion (okWorld "master".toList "1.2.3".toList true true) "major".toList).trace =
        [{ Id := "com.example.plugin".toList, Version := "2.0.0".toList,
           hasServer := true, hasWebapp := true }] ∧
      writtenManifests
        (bumpVersion (okWorld "master".toList "1.2.3".toList true true) "minor".toList).trace =
        [{ Id := "com.example.plugin".toList, Version := "1.3.0".toList,
           hasServer := true, hasWebapp := true }] ∧
      writtenManifests
        (bumpVersion (okWorld "master".toList "1.2.3".toList true true) "patch".toList).trace =
        [{ Id := "com.example.plugin".toList, Version := "1.2.4".toList,
           hasServer := true, hasWebapp := true }]) :=
  ⟨by decide,
   bumpVersion_plain_increment (okWorld "master".toList "1.2.3".toList true true)
     { Id := "com.example.plugin".toList, Version := "1.2.3".toList,
       hasServer := true, hasWebapp := true } 1 2 3 rfl (by decide)⟩

/-- C1, counterexample: the version `18446744073709551615.2.3` parses as a plain
version, and a major bump writes `0.0.0`, not `18446744073709551616.0.0`. -/
theorem bumpVersion_major_wraps :
    Parse "18446744073709551615.2.3".toList = .ok ⟨18446744073709551615, 2, 3, [], []⟩ ∧
    (writtenManifests
        (bumpVersion (okWorld "master".toList "18446744073709551615.2.3".toList false false)
          "major".toList).trace).map Manifest.Version = ["0.0.0".toList] ∧
    AppendUint (18446744073709551615 + 1) ++ ".0.0".toList ≠ "0.0.0".toList := by
  decide

/-- C2 (amended): when the manifest version carries a pre-release tag, the version
`bumpVersion` writes for a mode in `major`, `minor`, `patch` keeps that pre-release tag
(and the build metadata) unchanged, so its text still holds the `-` that introduces
the tag; the lower-order components are reset to zero and the higher-order ones are
left untouched. -/
theorem bumpVersion_keeps_prerelease (w : World) (mode : Str) (m : Manifest) (v : Version)
    (hf : w.findManifest = .ok m) (hp : Parse m.Version = .ok v) (hpre : v.Pre ≠ [])
    (hmode : mode = "major".toList ∨ mode = "minor".toList ∨ mode = "patch".toList) :
    ∃ newVersion : Version,
      switchMode mode v = some (newVersion, none) ∧
      writtenManifests (bumpVersion w mode).trace = [{ m with Version := newVersion.String }] ∧
      newVersion.Pre = v.Pre ∧ newVersion.Build = v.Build ∧
      '-' ∈ newVersion.String ∧
      (mode = "major".toList →
        newVersion.Major = (v.Major + 1) % uint64Size ∧ newVersion.Minor = 0 ∧
          newVersion.Patch = 0) ∧
      (mode = "minor".toList →
        newVersion.Major = v.Major ∧ newVersion.Minor = (v.Minor + 1) % uint64Size ∧
          newVersion.Patch = 0) ∧
      (mode = "patch".toList →
        newVersion.Major = v.Major ∧ newVersion.Minor = v.Minor ∧
          newVersion.Patch = (v.Patch + 1) % uint64Size) := by
  have hlen : 0 < v.Pre.length := List.length_pos.mpr hpre
  rcases hmode with h | h | h <;> subst h
  · refine ⟨_, switchMode_major v, writtenManifests_bumpVersion w _ m v _ hf hp
      (switchMode_major v), rfl, rfl, ?_, ?_, ?_, ?_⟩
    · simp [Version.String, hlen]
    · intro _; exact ⟨rfl, rfl, rfl⟩
    · intro h; exact absurd h (by decide)
    · intro h; exact absurd h (by decide)
  · refine ⟨_, switchMode_minor v, writtenManifests_bumpVersion w _ m v _ hf hp
      (switchMode_minor v), rfl, rfl, ?_, ?_, ?_, ?_⟩
    · simp [Version.String, hlen]
    · intro h; exact absurd h (by decide)
    · intro _; exact ⟨rfl, rfl, rfl⟩
    · intro h; exact absurd h (by decide)
  · refine ⟨_, switchMode_patch v, writtenManifests_bumpVersion w _ m v _ hf hp
      (switchMode_patch v), rfl, rfl, ?_, ?_, ?_, ?_⟩
    · simp [Version.String, hlen]
    · intro h; exact absurd h (by decide)
    · intro h; exact absurd h (by decide)
    · intro _; exact ⟨rfl, rfl, rfl⟩

/-- C2, witness: the theorem at the manifest version `1.2.3-alpha.1` and mode `major`;
the written version has the pre-release tag `alpha.1`. -/
theorem bumpVersion_keeps_prerelease_witness :
    Parse "1.2.3-alpha.1".toList
        = .ok ⟨1, 2, 3, [⟨"alpha".toList, 0, false⟩, ⟨[], 1, true⟩], []⟩ ∧
    ∃ newVersion : Version,
      writtenManifests
        (bumpVersion (okWorld "master".toList "1.2.3-alpha.1".toList false false)
          "major".toList).trace
        = [{ Id := "com.example.plugin".toList, Version := newVersion.String,
             hasServer := false, hasWebapp := false }] ∧
      newVersion.Pre = [⟨"alpha".toList, 0, false⟩, ⟨[], 1, true⟩] :=
  ⟨by decide,
   (bumpVersion_keeps_prerelease (okWorld "master".toList "1.2.3-alpha.1".toList false false)
      "major".toList
      { Id := "com.example.plugin".toList, Version := "1.2.3-alpha.1".toList,
        hasServer := false, hasWebapp := false }
      ⟨1, 2, 3, [⟨"alpha".toList, 0, false⟩, ⟨[], 1, true⟩], []⟩
      rfl (by decide) (by decide) (Or.inl rfl)).imp
     fun _ h => ⟨h.2.1, h.2.2.1⟩⟩

/-- C2, counterexample: a major bump of `1.2.3-alpha.1` writes `2.0.0-alpha.1`, which
parses with the pre-release tag `alpha.1`; it does not write `2.0.0`. -/
theorem bumpVersion_prerelease_survives :
    (writtenManifests
        (bumpVersion (okWorld "master".toList "1.2.3-alpha.1".toList false false)
          "major".toList).trace).map Manifest.Version = ["2.0.0-alpha.1".toList] ∧
    Parse "2.0.0-alpha.1".toList
        = .ok ⟨2, 0, 0, [⟨"alpha".toList, 0, false⟩, ⟨[], 1, true⟩], []⟩ ∧
    "2.0.0-alpha.1".toList ≠ "2.0.0".toList := by
  decide

/-! ## Early failures (C3, C4) -/

/-- C3 (amended): for a mode other than `major`, `minor` and `patch`, in every state of
the manifest `bumpVersion` returns an error and does nothing but the `findManifest`
call (no `writeManifest`, no `applyManifest`, no `git`, no prompt); the error is the
`unknown mode <mode>` error when the manifest is found and its version parses, the
wrapped `failed to find manifest` error when the manifest is not found, and the wrapped
`failed to parse version in manifest` error when its version does not parse. -/
theorem bumpVersion_unknown_mode (w : World) (mode : Str)
    (h1 : mode ≠ "major".toList) (h2 : mode ≠ "minor".toList) (h3 : mode ≠ "patch".toList) :
    (bumpVersion w mode).trace = [.findManifest] ∧
    (bumpVersion w mode).err ≠ none ∧
    (∀ m v, w.findManifest = .ok m → Parse m.Version = .ok v →
      (bumpVersion w mode).err = some (.errorf ("unknown mode ".toList ++ mode))) ∧
    (∀ e, w.findManifest = .error e →
      (bumpVersion w mode).err = some (.wrap e "failed to find manifest".toList)) ∧
    (∀ m e, w.findManifest = .ok m → Parse m.Version = .error e →
      (bumpVersion w mode).err
        = some (.wrap e "failed to parse version in manifest".toList)) := by
  refine ⟨?_, ?_, ?_, ?_, ?_⟩
  · unfold bumpVersion
    split
    · rfl
    · split
      · rfl
      · simp only [switchMode_unknown mode _ h1 h2 h3]
  · unfold bumpVersion
    split
    · simp
    · split
      · simp
      · simp only [switchMode_unknown mode _ h1 h2 h3]
        simp
  · intro m v hf hp
    unfold bumpVersion
    simp only [hf, hp, switchMode_unknown mode v h1 h2 h3]
  · intro e hf
    unfold bumpVersion
    simp only [hf]
  · intro m e hf hp
    unfold bumpVersion
    simp only [hf, hp]

/-- C3, witness: mode `revision` on a manifest with version `1.2.3`, on a missing
manifest, and on a manifest with the unparsable version `v1.2`. -/
theorem bumpVersion_unknown_mode_witness :
    (bumpVersion (okWorld "master".toList "1.2.3".toList true true) "revision".toList).trace
        = [.findManifest] ∧
    (bumpVersion (okWorld "master".toList "1.2.3".toList true true) "revision".toList).err
        = some (.errorf "unknown mode revision".toList) ∧
    (bumpVersion noManifestWorld "revision".toList).trace = [.findManifest] ∧
    (bumpVersion noManifestWorld "revision".toList).err
        = some (.wrap (.external "no manifest found".toList)
            "failed to find manifest".toList) ∧
    (bumpVersion (okWorld "master".toList "v1.2".toList true true) "revision".toList).err
        = some (.wrap (.new "No Major.Minor.Patch elements found".toList)
            "failed to parse version in manifest".toList) :=
  ⟨(bumpVersion_unknown_mode (okWorld "master".toList "1.2.3".toList true true)
      "revision".toList (by decide) (by decide) (by decide)).1,
   (bumpVersion_unknown_mode (okWorld "master".toList "1.2.3".toList true true)
      "revision".toList (by decide) (by decide) (by decide)).2.2.1 _ ⟨1, 2, 3, [], []⟩ rfl
      (by decide),
   (bumpVersion_unknown_mode noManifestWorld
      "revision".toList (by decide) (by decide) (by decide)).1,
   (bumpVersion_unknown_mode noManifestWorld
      "revision".toList (by decide) (by decide) (by decide)).2.2.2.1 _ rfl,
   (bumpVersion_unknown_mode (okWorld "master".toList "v1.2".toList true true)
      "revision".toList (by decide) (by decide) (by decide)).2.2.2.2 _
      (.new "No Major.Minor.Patch elements found".toList) rfl (by decide)⟩

/-- C3, counterexample: with mode `revision`, a missing manifest gives the
`failed to find manifest` error and an unparsable version `v1.2` gives the
`failed to parse version in manifest` error; neither is the unknown-mode error. -/
theorem unknown_mode_error_not_first :
    (bumpVersion noManifestWorld "revision".toList).err
        = some (.wrap (.external "no manifest found".toList) "failed to find manifest".toList) ∧
    (bumpVersion (okWorld "master".toList "v1.2".toList true true) "revision".toList).err
        = some (.wrap (.new "No Major.Minor.Patch elements found".toList)
            "failed to parse version in manifest".toList) ∧
    (bumpVersion noManifestWorld "revision".toList).err
        ≠ some (.errorf "unknown mode revision".toList) ∧
    (bumpVersion (okWorld "master".toList "v1.2".toList true true) "revision".toList).err
        ≠ some (.errorf "unknown mode revision".toList) := by
  decide

/-- C4: when the manifest is found and `semver.Parse` rejects its version, `bumpVersion`
returns that parse error wrapped with `failed to parse version in manifest`, for every
mode, and has done nothing but the `findManifest` call: no `writeManifest`, no
`applyManifest`, no `git` process. -/
theorem bumpVersion_unparsable_version (w : World) (mode : Str) (m : Manifest) (e : GoError)
    (hf : w.findManifest = .ok m) (hp : Parse m.Version = .error e) :
    (bumpVersion w mode).err
        = some (.wrap e "failed to parse version in manifest".toList) ∧
    (bumpVersion w mode).trace = [.findManifest] ∧
    writtenManifests (bumpVersion w mode).trace = [] ∧
    gitCalls (bumpVersion w mode).trace = [] := by
  have h : bumpVersion w mode
      = ⟨[.findManifest], some (.wrap e "failed to parse version in manifest".toList)⟩ := by
    unfold bumpVersion
    simp only [hf, hp]
  rw [h]
  exact ⟨rfl, rfl, rfl, rfl⟩

/-- C4, witness: the version `v1.2` is rejected by `semver.Parse`, and `bumpVersion`
in mode `patch` stops there. -/
theorem bumpVersion_unparsable_version_witness :
    Parse "v1.2".toList = .error (.new "No Major.Minor.Patch elements found".toList) ∧
    (bumpVersion (okWorld "master".toList "v1.2".toList true true) "patch".toList).err
        = some (.wrap (.new "No Major.Minor.Patch elements found".toList)
            "failed to parse version in manifest".toList) ∧
    (bumpVersion (okWorld "master".toList "v1.2".toList true true) "patch".toList).trace
        = [.findManifest] :=
  ⟨by decide,
   (bumpVersion_unparsable_version (okWorld "master".toList "v1.2".toList true true)
      "patch".toList _ (.new "No Major.Minor.Patch elements found".toList) rfl (by decide)).1,
   (bumpVersion_unparsable_version (okWorld "master".toList "v1.2".toList true true)
      "patch".toList _ (.new "No Major.Minor.Patch elements found".toList) rfl
      (by decide)).2.1⟩

/-! ## Review, confirmation and the git sequence (C5 to C9) -/

/-- C5: whenever `prompt.Run` is reached and returns an error, `bumpVersion` returns
`nil`, the only `git` process of the whole run is the preceding `git diff` (no
`checkout -b`, `add`, `commit`, `push` or `checkout`), and the last thing it does is
print the cancellation notice. -/
theorem bumpVersion_declined (w : World) (mode : Str) (m : Manifest) (e : GoError)
    (hf : w.findManifest = .ok m) (hprompt : w.promptRun = .error e)
    (hreach : Event.promptRun ∈ (bumpVersion w mode).trace) :
    (bumpVersion w mode).err = none ∧
    gitCalls (bumpVersion w mode).trace = ["diff".toList :: files m] ∧
    (bumpVersion w mode).trace.getLast?
        = some (.print "Diff wasn\x27t confirmed. Exiting.\n".toList) := by
  revert hreach
  unfold bumpVersion
  simp only [hf, hprompt]
  split
  · simp
  · split
    · simp
    · simp
    · split
      · simp
      · split
        · simp
        · split
          · simp
          · intro _
            refine ⟨rfl, ?_, ?_⟩
            · simp [gitCalls, files, Manifest.HasServer, Manifest.HasWebapp]
            · simp

/-- C5, witness: the operator declines on a manifest with version `1.2.3`. -/
theorem bumpVersion_declined_witness :
    (bumpVersion declineWorld "minor".toList).err = none ∧
    gitCalls (bumpVersion declineWorld "minor".toList).trace
        = [["diff".toList, "plugin.json".toList, "server/manifest.go".toList]] :=
  ⟨(bumpVersion_declined declineWorld "minor".toList
      { Id := "com.example.plugin".toList, Version := "1.2.3".toList,
        hasServer := true, hasWebapp := false } (.external "".toList) rfl rfl (by decide)).1,
   (bumpVersion_declined declineWorld "minor".toList
      { Id := "com.example.plugin".toList, Version := "1.2.3".toList,
        hasServer := true, hasWebapp := false } (.external "".toList) rfl rfl (by decide)).2.1⟩

/-- C6: after confirmation, if the first `k` commands of the git sequence succeed and
the next one fails with error `e` and output `out`, then `bumpVersion` returns `e`, the
`git` processes of the run are the `git diff` followed by exactly the first `k + 1`
commands of the sequence in order (nothing after the failed one, no rollback command),
and the last thing done is printing `out`. -/
theorem bumpVersion_git_step_fails (w : World) (mode : Str) (m : Manifest)
    (v newVersion : Version) (diffOut answer : Str) (k : Nat) (command : List Str)
    (out : Str) (e : GoError)
    (hf : w.findManifest = .ok m) (hp : Parse m.Version = .ok v)
    (hs : switchMode mode v = some (newVersion, none))
    (hw : w.writeManifest { m with Version := newVersion.String } = none)
    (ha : w.applyManifest { m with Version := newVersion.String } = none)
    (hd : w.git 0 ("diff".toList :: files m) = (diffOut, none))
    (hprompt : w.promptRun = .ok answer)
    (hk : (gitCommands newVersion (files m))[k]? = some command)
    (hok : ∀ i c, i < k → (gitCommands newVersion (files m))[i]? = some c →
      (w.git (1 + i) c).2 = none)
    (hfail : w.git (1 + k) command = (out, some e)) :
    (bumpVersion w mode).err = some e ∧
    gitCalls (bumpVersion w mode).trace
        = ("diff".toList :: files m) :: (gitCommands newVersion (files m)).take (k + 1) ∧
    (bumpVersion w mode).trace.getLast? = some (.print out) := by
  obtain ⟨h1, h2, h3⟩ :=
    runGitCommands_fail w (gitCommands newVersion (files m)) 1 k command out e hk hok hfail
  rw [bumpVersion_commit_stage w mode m v newVersion diffOut answer hf hp hs hw ha hd hprompt]
  refine ⟨h1, ?_, ?_⟩
  · rw [gitCalls_append, h2]
    simp [gitCalls]
  · rw [List.getLast?_append, h3]
    rfl

/-- C6, witness: the push (fourth command) is rejected after branch creation, staging
and commit succeeded: the run returns the exit error, ran `diff`, `checkout -b`, `add`,
`commit`, `push` and nothing else, and ends by printing the push output. -/
theorem bumpVersion_git_step_fails_witness :
    (bumpVersion pushFailsWorld "patch".toList).err = some (.exitError 1) ∧
    gitCalls (bumpVersion pushFailsWorld "patch".toList).trace
        = [["diff".toList, "plugin.json".toList, "server/manifest.go".toList],
           ["checkout".toList, "-b".toList, "release_v1.2.4".toList],
           ["add".toList, "plugin.json".toList, "server/manifest.go".toList],
           ["commit".toList, "-m".toList, "Bump version to 1.2.4".toList],
           ["push".toList, "--set-upstream".toList, "origin".toList,
             "release_v1.2.4".toList]] ∧
    (bumpVersion pushFailsWorld "patch".toList).trace.getLast?
        = some (.print "remote rejected\n".toList) :=
  bumpVersion_git_step_fails pushFailsWorld "patch".toList
    { Id := "com.example.plugin".toList, Version := "1.2.3".toList,
      hasServer := true, hasWebapp := false }
    ⟨1, 2, 3, [], []⟩ ⟨1, 2, 4, [], []⟩ [] "y".toList 3
    ["push".toList, "--set-upstream".toList, "origin".toList, "release_v1.2.4".toList]
    "remote rejected\n".toList (.exitError 1)
    rfl (by decide) (by decide) rfl rfl rfl rfl (by decide)
    (by
      intro i c hi _
      have h4 : 1 + i ≠ 4 := by omega
      simp [pushFailsWorld, h4])
    rfl

/-- C7 (amended): when the diff is confirmed and every git step succeeds, `bumpVersion`
returns `nil` and runs, after `git diff`, exactly: `checkout -b release_vV`, `add` of
the file list, `commit -m "Bump version to V"`, `push --set-upstream origin release_vV`
and finally `checkout master`: the last command names the fixed branch `master`. -/
theorem bumpVersion_git_sequence (w : World) (mode : Str) (m : Manifest)
    (v newVersion : Version) (answer : Str)
    (hf : w.findManifest = .ok m) (hp : Parse m.Version = .ok v)
    (hs : switchMode mode v = some (newVersion, none))
    (hw : w.writeManifest { m with Version := newVersion.String } = none)
    (ha : w.applyManifest { m with Version := newVersion.String } = none)
    (hprompt : w.promptRun = .ok answer)
    (hall : ∀ i args, (w.git i args).2 = none) :
    (bumpVersion w mode).err = none ∧
    gitCalls (bumpVersion w mode).trace =
      [ "diff".toList :: files m,
        ["checkout".toList, "-b".toList, "release_v".toList ++ newVersion.String],
        "add".toList :: files m,
        ["commit".toList, "-m".toList, "Bump version to ".toList ++ newVersion.String],
        ["push".toList, "--set-upstream".toList, "origin".toList,
          "release_v".toList ++ newVersion.String],
        ["checkout".toList, "master".toList] ] := by
  have hd : w.git 0 ("diff".toList :: files m)
      = ((w.git 0 ("diff".toList :: files m)).1, none) := by
    have := hall 0 ("diff".toList :: files m)
    exact Prod.ext rfl this
  obtain ⟨h1, h2⟩ := runGitCommands_ok w (gitCommands newVersion (files m)) 1 hall
  rw [bumpVersion_commit_stage w mode m v newVersion _ answer hf hp hs hw ha hd hprompt]
  refine ⟨h1, ?_⟩
  rw [gitCalls_append, h2]
  simp [gitCalls, gitCommands]

/-- C7, witness: a confirmed minor bump of `1.2.3` started on branch `master`. -/
theorem bumpVersion_git_sequence_witness :
    (bumpVersion (okWorld "master".toList "1.2.3".toList false true) "minor".toList).err = none ∧
    gitCalls (bumpVersion (okWorld "master".toList "1.2.3".toList false true)
        "minor".toList).trace =
      [ ["diff".toList, "plugin.json".toList, "webapp/src/manifest.js".toList],
        ["checkout".toList, "-b".toList, "release_v1.3.0".toList],
        ["add".toList, "plugin.json".toList, "webapp/src/manifest.js".toList],
        ["commit".toList, "-m".toList, "Bump version to 1.3.0".toList],
        ["push".toList, "--set-upstream".toList, "origin".toList, "release_v1.3.0".toList],
        ["checkout".toList, "master".toList] ] :=
  bumpVersion_git_sequence (okWorld "master".toList "1.2.3".toList false true) "minor".toList
    { Id := "com.example.plugin".toList, Version := "1.2.3".toList,
      hasServer := false, hasWebapp := true }
    ⟨1, 2, 3, [], []⟩ ⟨1, 3, 0, [], []⟩ "y".toList
    rfl (by decide) (by decide) rfl rfl rfl (fun _ _ => rfl)

/-- C7, counterexample: started while branch `develop` is checked out, a confirmed and
fully successful run ends with `git checkout master`, not `git checkout develop`. -/
theorem bumpVersion_returns_to_master :
    (okWorld "develop".toList "1.2.3".toList false false).branch = "develop".toList ∧
    (bumpVersion (okWorld "develop".toList "1.2.3".toList false false) "patch".toList).err
        = none ∧
    (gitCalls (bumpVersion (okWorld "develop".toList "1.2.3".toList false false)
        "patch".toList).trace).getLast? = some ["checkout".toList, "master".toList] ∧
    ["checkout".toList, (okWorld "develop".toList "1.2.3".toList false false).branch]
        ∉ gitCalls (bumpVersion (okWorld "develop".toList "1.2.3".toList false false)
            "patch".toList).trace := by
  decide

/-- C8 (amended): once the manifest is written and applied, any error of the `git diff`
process, a non-zero exit status included, makes `bumpVersion` print the captured
output and return that error without reaching the confirmation prompt; it goes on to
the prompt exactly when `git diff` returns no error. -/
theorem bumpVersion_diff_error (w : World) (mode : Str) (m : Manifest)
    (v newVersion : Version)
    (hf : w.findManifest = .ok m) (hp : Parse m.Version = .ok v)
    (hs : switchMode mode v = some (newVersion, none))
    (hw : w.writeManifest { m with Version := newVersion.String } = none)
    (ha : w.applyManifest { m with Version := newVersion.String } = none) :
    (∀ out e, w.git 0 ("diff".toList :: files m) = (out, some e) →
      (bumpVersion w mode).err = some e ∧
      (bumpVersion w mode).trace =
        [.findManifest, .writeManifest { m with Version := newVersion.String },
          .applyManifest { m with Version := newVersion.String },
          .git ("diff".toList :: files m), .print out] ∧
      Event.promptRun ∉ (bumpVersion w mode).trace) ∧
    (∀ out, w.git 0 ("diff".toList :: files m) = (out, none) →
      Event.promptRun ∈ (bumpVersion w mode).trace ∧
      Event.print out ∈ (bumpVersion w mode).trace) := by
  constructor
  · intro out e hd
    have h : bumpVersion w mode =
        ⟨[.findManifest, .writeManifest { m with Version := newVersion.String },
          .applyManifest { m with Version := newVersion.String },
          .git ("diff".toList :: files m), .print out], some e⟩ := by
      unfold bumpVersion
      simp only [hf, hp, hs, hw, ha, files_update_version, hd]
    rw [h]
    exact ⟨rfl, rfl, by simp⟩
  · intro out hd
    unfold bumpVersion
    simp only [hf, hp, hs, hw, ha, files_update_version, hd]
    split <;> simp

/-- C8, witness: `git diff` exits with status 1 on a manifest with version `1.2.3`. -/
theorem bumpVersion_diff_error_witness :
    (bumpVersion diffExitsWorld "major".toList).err = some (.exitError 1) ∧
    (bumpVersion diffExitsWorld "major".toList).trace.getLast?
        = some (.print "fatal: bad revision\n".toList) :=
  have h := (bumpVersion_diff_error diffExitsWorld "major".toList
    { Id := "com.example.plugin".toList, Version := "1.2.3".toList,
      hasServer := true, hasWebapp := false }
    ⟨1, 2, 3, [], []⟩ ⟨2, 0, 0, [], []⟩ rfl (by decide) (by decide) rfl rfl).1
    "fatal: bad revision\n".toList (.exitError 1) rfl
  ⟨h.1, by rw [h.2.1]; rfl⟩

/-- C8, counterexample: the `git diff` process was started and exited with status 1;
`bumpVersion` returns that exit error and never reaches the prompt. -/
theorem bumpVersion_diff_exit_not_tolerated :
    diffExitsWorld.git 0 ["diff".toList, "plugin.json".toList, "server/manifest.go".toList]
        = ("fatal: bad revision\n".toList, some (.exitError 1)) ∧
    (bumpVersion diffExitsWorld "major".toList).err = some (.exitError 1) ∧
    Event.promptRun ∉ (bumpVersion diffExitsWorld "major".toList).trace := by
  decide

/-- C9: the file list is `plugin.json` first, then `server/manifest.go` exactly when
`HasServer()`, then `webapp/src/manifest.js` exactly when `HasWebapp()`; it has one to
three entries and no duplicate. Every run that gets past `applyManifest` starts
`git diff` with exactly that list as its first `git` process; every confirmed run whose
`checkout -b` succeeds starts `git add` with exactly that list as its third; and no
run starts a `git diff` or a `git add` with any other arguments. -/
theorem files_exact (w : World) (mode : Str) (m : Manifest) (hf : w.findManifest = .ok m) :
    files m = "plugin.json".toList ::
      ((if m.HasServer then ["server/manifest.go".toList] else []) ++
        (if m.HasWebapp then ["webapp/src/manifest.js".toList] else [])) ∧
    ("server/manifest.go".toList ∈ files m ↔ m.HasServer = true) ∧
    ("webapp/src/manifest.js".toList ∈ files m ↔ m.HasWebapp = true) ∧
    1 ≤ (files m).length ∧ (files m).length ≤ 3 ∧ (files m).Nodup ∧
    (∀ args ∈ gitCalls (bumpVersion w mode).trace,
      (args.head? = some "diff".toList ∨ args.head? = some "add".toList) →
        args.tail = files m) ∧
    (∀ v newVersion, Parse m.Version = .ok v →
      switchMode mode v = some (newVersion, none) →
      w.writeManifest { m with Version := newVersion.String } = none →
      w.applyManifest { m with Version := newVersion.String } = none →
      (gitCalls (bumpVersion w mode).trace).head? = some ("diff".toList :: files m)) ∧
    (∀ v newVersion out answer, Parse m.Version = .ok v →
      switchMode mode v = some (newVersion, none) →
      w.writeManifest { m with Version := newVersion.String } = none →
      w.applyManifest { m with Version := newVersion.String } = none →
      w.git 0 ("diff".toList :: files m) = (out, none) →
      w.promptRun = .ok answer →
      (w.git 1 ["checkout".toList, "-b".toList,
        "release_v".toList ++ newVersion.String]).2 = none →
      (gitCalls (bumpVersion w mode).trace)[2]? = some ("add".toList :: files m)) := by
  refine ⟨files_cases m, ?_, ?_, ?_, ?_, ?_, ?_, ?_, ?_⟩
  · rw [files_cases]
    cases m.HasServer <;> cases m.HasWebapp <;> decide
  · rw [files_cases]
    cases m.HasServer <;> cases m.HasWebapp <;> decide
  · rw [files_cases]
    cases m.HasServer <;> cases m.HasWebapp <;> decide
  · rw [files_cases]
    cases m.HasServer <;> cases m.HasWebapp <;> decide
  · rw [files_cases]
    cases m.HasServer <;> cases m.HasWebapp <;> decide
  · intro args hmem hhead
    rcases gitCalls_bumpVersion_mem w mode m hf args hmem with h | ⟨nv, h⟩
    · rw [h]; rfl
    · simp only [gitCommands, List.mem_cons, List.not_mem_nil, or_false] at h
      rcases h with h | h | h | h | h <;> subst h
      · rcases hhead with h | h <;> simp at h
      · rfl
      · rcases hhead with h | h <;> simp at h
      · rcases hhead with h | h <;> simp at h
      · rcases hhead with h | h <;> simp at h
  · intro v newVersion hp hs hw ha
    unfold bumpVersion
    simp only [hf, hp, hs, hw, ha, files_update_version]
    split
    · simp [gitCalls]
    · split
      · simp [gitCalls]
      · simp [gitCalls]
  · intro v newVersion out answer hp hs hw ha hd hprompt hco
    rw [bumpVersion_commit_stage w mode m v newVersion out answer hf hp hs hw ha hd hprompt,
      gitCalls_append]
    have h2 := gitCalls_runGitCommands_second w 1
      ["checkout".toList, "-b".toList, "release_v".toList ++ newVersion.String]
      ("add".toList :: files m)
      [["commit".toList, "-m".toList, "Bump version to ".toList ++ newVersion.String],
       ["push".toList, "--set-upstream".toList, "origin".toList,
         "release_v".toList ++ newVersion.String],
       ["checkout".toList, "master".toList]] hco
    obtain ⟨tl, hc⟩ := h2
    have hg : gitCommands newVersion (files m)
        = ["checkout".toList, "-b".toList, "release_v".toList ++ newVersion.String] ::
          ("add".toList :: files m) ::
          [["commit".toList, "-m".toList, "Bump version to ".toList ++ newVersion.String],
           ["push".toList, "--set-upstream".toList, "origin".toList,
             "release_v".toList ++ newVersion.String],
           ["checkout".toList, "master".toList]] := rfl
    rw [hg, hc]
    simp [gitCalls]

/-- C9, witness: a manifest with a server and a webapp part, bumped and confirmed: the
first `git` process is the `diff` of the three files, the third is the `add` of the
same three files. -/
theorem files_exact_witness :
    files { Id := "com.example.plugin".toList, Version := "1.2.3".toList,
            hasServer := true, hasWebapp := true }
      = ["plugin.json".toList, "server/manifest.go".toList, "webapp/src/manifest.js".toList] ∧
    (gitCalls (bumpVersion (okWorld "master".toList "1.2.3".toList true true)
        "patch".toList).trace).head?
      = some ["diff".toList, "plugin.json".toList, "server/manifest.go".toList,
          "webapp/src/manifest.js".toList] ∧
    (gitCalls (bumpVersion (okWorld "master".toList "1.2.3".toList true true)
        "patch".toList).trace)[2]?
      = some ["add".toList, "plugin.json".toList, "server/manifest.go".toList,
          "webapp/src/manifest.js".toList] ∧
    ∀ args ∈ gitCalls (bumpVersion (okWorld "master".toList "1.2.3".toList true true)
        "patch".toList).trace,
      (args.head? = some "diff".toList ∨ args.head? = some "add".toList) →
        args.tail
          = ["plugin.json".toList, "server/manifest.go".toList,
             "webapp/src/manifest.js".toList] :=
  ⟨(files_exact (okWorld "master".toList "1.2.3".toList true true) "patch".toList
      { Id := "com.example.plugin".toList, Version := "1.2.3".toList,
        hasServer := true, hasWebapp := true } rfl).1,
   (files_exact (okWorld "master".toList "1.2.3".toList true true) "patch".toList
      { Id := "com.example.plugin".toList, Version := "1.2.3".toList,
        hasServer := true, hasWebapp := true } rfl).2.2.2.2.2.2.2.1
      ⟨1, 2, 3, [], []⟩ ⟨1, 2, 4, [], []⟩ (by decide) (by decide) rfl rfl,
   (files_exact (okWorld "master".toList "1.2.3".toList true true) "patch".toList
      { Id := "com.example.plugin".toList, Version := "1.2.3".toList,
        hasServer := true, hasWebapp := true } rfl).2.2.2.2.2.2.2.2
      ⟨1, 2, 3, [], []⟩ ⟨1, 2, 4, [], []⟩ [] "y".toList (by decide) (by decide) rfl rfl
      rfl rfl rfl,
   (files_exact (okWorld "master".toList "1.2.3".toList true true) "patch".toList
      { Id := "com.example.plugin".toList, Version := "1.2.3".toList,
        hasServer := true, hasWebapp := true } rfl).2.2.2.2.2.2.1⟩

/-! ## Ordering (C10) -/

/-- C10 (amended): for every version (so for every one `semver.Parse` returns, with or
without a pre-release tag) and a mode in `major`, `minor`, `patch` whose component is
below 18446744073709551615, the incremented version is
strictly higher than the original in `Compare` order, hence never lower; and when the
component of the incremented version is again below that bound, a second increment is
strictly higher than the first result and than the original. -/
theorem increment_raises (mode : Str) (v : Version)
    (hmode : mode = "major".toList ∨ mode = "minor".toList ∨ mode = "patch".toList)
    (hc : selected mode v < maxUint64) :
    ∃ v1, switchMode mode v = some (v1, none) ∧ v1.Compare v = 1 ∧
      (selected mode v1 < maxUint64 →
        ∃ v2, switchMode mode v1 = some (v2, none) ∧ v2.Compare v1 = 1 ∧
          v2.Compare v = 1) := by
  have hsize : maxUint64 + 1 = uint64Size := by decide
  rcases hmode with h | h | h <;> subst h
  · have hc1 : v.Major + 1 < uint64Size := by
      have : selected "major".toList v = v.Major := by simp [selected]
      omega
    refine ⟨_, switchMode_major v, Compare_major_gt _ _ ?_, ?_⟩
    · show v.Major < (v.Major + 1) % uint64Size
      rw [Nat.mod_eq_of_lt hc1]; omega
    · intro hc2
      have hc3 : v.Major + 1 + 1 < uint64Size := by
        have : selected "major".toList
            { v with Major := (v.Major + 1) % uint64Size, Minor := 0, Patch := 0 }
            = (v.Major + 1) % uint64Size := by simp [selected]
        rw [this, Nat.mod_eq_of_lt hc1] at hc2
        omega
      refine ⟨_, switchMode_major _, Compare_major_gt _ _ ?_, Compare_major_gt _ _ ?_⟩
      · show (v.Major + 1) % uint64Size < ((v.Major + 1) % uint64Size + 1) % uint64Size
        rw [Nat.mod_eq_of_lt hc1, Nat.mod_eq_of_lt hc3]; omega
      · show v.Major < ((v.Major + 1) % uint64Size + 1) % uint64Size
        rw [Nat.mod_eq_of_lt hc1, Nat.mod_eq_of_lt hc3]; omega
  · have hc1 : v.Minor + 1 < uint64Size := by
      have : selected "minor".toList v = v.Minor := by simp [selected]
      omega
    refine ⟨_, switchMode_minor v, Compare_minor_gt _ _ rfl ?_, ?_⟩
    · show v.Minor < (v.Minor + 1) % uint64Size
      rw [Nat.mod_eq_of_lt hc1]; omega
    · intro hc2
      have hc3 : v.Minor + 1 + 1 < uint64Size := by
        have : selected "minor".toList
            { v with Minor := (v.Minor + 1) % uint64Size, Patch := 0 }
            = (v.Minor + 1) % uint64Size := by simp [selected]
        rw [this, Nat.mod_eq_of_lt hc1] at hc2
        omega
      refine ⟨_, switchMode_minor _, Compare_minor_gt _ _ rfl ?_,
        Compare_minor_gt _ _ rfl ?_⟩
      · show (v.Minor + 1) % uint64Size < ((v.Minor + 1) % uint64Size + 1) % uint64Size
        rw [Nat.mod_eq_of_lt hc1, Nat.mod_eq_of_lt hc3]; omega
      · show v.Minor < ((v.Minor + 1) % uint64Size + 1) % uint64Size
        rw [Nat.mod_eq_of_lt hc1, Nat.mod_eq_of_lt hc3]; omega
  · have hc1 : v.Patch + 1 < uint64Size := by
      have : selected "patch".toList v = v.Patch := by simp [selected]
      omega
    refine ⟨_, switchMode_patch v, Compare_patch_gt _ _ rfl rfl ?_, ?_⟩
    · show v.Patch < (v.Patch + 1) % uint64Size
      rw [Nat.mod_eq_of_lt hc1]; omega
    · intro hc2
      have hc3 : v.Patch + 1 + 1 < uint64Size := by
        have : selected "patch".toList { v with Patch := (v.Patch + 1) % uint64Size }
            = (v.Patch + 1) % uint64Size := by simp [selected]
        rw [this, Nat.mod_eq_of_lt hc1] at hc2
        omega
      refine ⟨_, switchMode_patch _, Compare_patch_gt _ _ rfl rfl ?_,
        Compare_patch_gt _ _ rfl rfl ?_⟩
      · show (v.Patch + 1) % uint64Size < ((v.Patch + 1) % uint64Size + 1) % uint64Size
        rw [Nat.mod_eq_of_lt hc1, Nat.mod_eq_of_lt hc3]; omega
      · show v.Patch < ((v.Patch + 1) % uint64Size + 1) % uint64Size
        rw [Nat.mod_eq_of_lt hc1, Nat.mod_eq_of_lt hc3]; omega

/-- C10, witness: `1.2.3-alpha.1` incremented by `minor`, once and twice. -/
theorem increment_raises_witness :
    Parse "1.2.3-alpha.1".toList
        = .ok ⟨1, 2, 3, [⟨"alpha".toList, 0, false⟩, ⟨[], 1, true⟩], []⟩ ∧
    ∃ v1, switchMode "minor".toList
          ⟨1, 2, 3, [⟨"alpha".toList, 0, false⟩, ⟨[], 1, true⟩], []⟩ = some (v1, none) ∧
        v1.Compare ⟨1, 2, 3, [⟨"alpha".toList, 0, false⟩, ⟨[], 1, true⟩], []⟩ = 1 :=
  ⟨by decide,
   (increment_raises "minor".toList
      ⟨1, 2, 3, [⟨"alpha".toList, 0, false⟩, ⟨[], 1, true⟩], []⟩
      (Or.inr (Or.inl rfl)) (by decide)).imp
     fun _ h => ⟨h.1, h.2.1⟩⟩

/-- C10, counterexample: `18446744073709551615.0.0` is a valid version, its major
increment is `0.0.0`, and `0.0.0` is lower than it in `Compare` order. -/
theorem increment_lowers_at_max :
    Parse "18446744073709551615.0.0".toList = .ok ⟨18446744073709551615, 0, 0, [], []⟩ ∧
    switchMode "major".toList ⟨18446744073709551615, 0, 0, [], []⟩
        = some (⟨0, 0, 0, [], []⟩, none) ∧
    Version.Compare ⟨0, 0, 0, [], []⟩ ⟨18446744073709551615, 0, 0, [], []⟩ = -1 := by
  decide

end Pluginctl
